import Mathlib

/-
Verification of the user-management service against its specification.

The development shallowly embeds the code of
  app/models/user_model.py      (User, UserRole, RetentionAnalytics)
  app/services/user_service.py  (UserService)
  app/services/analytics_service.py (AnalyticsService)
as pure Lean functions.  The database session is modelled as an explicit
state (a list of user rows plus a list of retention rows); timestamps are
integers counting seconds; nullable columns are Option; the opaque
capabilities (password hashing, password verification, token and nickname
generation) are parameters.  A boolean fault flag, where present, models a
store-level failure (SQLAlchemyError) raised by the corresponding store
call; operations that wrap the call in try/except turn the fault into a
rollback plus sentinel, operations without a handler surface it as an
Except.error value.
-/

namespace UserMgmt

/-- Roles of app/models/user_model.py, class UserRole. -/
inductive UserRole where
  | ANONYMOUS
  | AUTHENTICATED
  | MANAGER
  | ADMIN
deriving DecidableEq, Repr

/-- One row of the users table (app/models/user_model.py, class User).
Columns irrelevant to every claim (profile picture and social urls,
created_at, updated_at, professional_status_updated_at) are omitted.
The field defaults are the column defaults of the model: boolean flags
default to false, failed_login_attempts to 0, and columns without a
default (nickname, role, hashed_password and the nullable ones) to none.
The id column (uuid4 default) is modelled as a Nat supplied by the caller. -/
structure User where
  id : Nat := 0
  nickname : Option String := none
  email : String := ""
  first_name : Option String := none
  last_name : Option String := none
  bio : Option String := none
  role : Option UserRole := none
  is_professional : Bool := false
  last_login_at : Option Int := none
  failed_login_attempts : Nat := 0
  is_locked : Bool := false
  verification_token : Option String := none
  email_verified : Bool := false
  hashed_password : Option String := none
  invited_by_user_id : Option Nat := none
  is_converted : Bool := false
deriving DecidableEq, Repr

/-- Writing a mutated ORM object back: the row with the same id is
replaced (session.add of an already persistent object plus commit). -/
def persist (db : List User) (u : User) : List User :=
  db.map fun v => if v.id == u.id then u else v

/-! ## Analytics service (app/services/analytics_service.py) -/

/-- Comparison `last_login_at < cutoff` under SQL three-valued logic: a
NULL timestamp satisfies no comparison, so the row is not counted. -/
def sqlLt (v : Option Int) (cutoff : Int) : Bool :=
  match v with
  | none => false
  | some t => t < cutoff

/-- Count of users holding the given role
(`select count() where User.role == r`). -/
def countRole (users : List User) (r : UserRole) : Nat :=
  users.countP fun u => u.role == some r

/-- Users whose last_login_at is before now minus 24 hours (86400 s). -/
def inactive_users_24hr (users : List User) (now : Int) : Nat :=
  users.countP fun u => sqlLt u.last_login_at (now - 86400)

/-- Users whose last_login_at is before now minus 48 hours (172800 s). -/
def inactive_users_48hr (users : List User) (now : Int) : Nat :=
  users.countP fun u => sqlLt u.last_login_at (now - 172800)

/-- Users whose last_login_at is before now minus one week (604800 s). -/
def inactive_users_1wk (users : List User) (now : Int) : Nat :=
  users.countP fun u => sqlLt u.last_login_at (now - 604800)

/-- Users whose last_login_at is before now minus 365 days (31536000 s). -/
def inactive_users_1yr (users : List User) (now : Int) : Nat :=
  users.countP fun u => sqlLt u.last_login_at (now - 31536000)

/-- Fuel-driven base-two logarithm, structurally recursive so that it
evaluates both in the elaborator and in the kernel. -/
def log2Aux : Nat → Nat → Nat
  | 0, _ => 0
  | fuel + 1, n => if 2 ≤ n then log2Aux fuel (n / 2) + 1 else 0

/-- Floor of the base-two logarithm of a positive natural number. -/
def natLog2 (n : Nat) : Nat := log2Aux n n

/-- Round num / den to the nearest integer with ties to even, on natural
numbers.  This is the rounding both of IEEE-754 round-to-nearest-even,
applied at mantissa scale, and of the CPython float formatter, applied to
the exact value of a double. -/
def roundHalfEvenDiv (num den : Nat) : Nat :=
  let q := num / den
  let r := num % den
  if 2 * r < den then q
  else if den < 2 * r then q + 1
  else if q % 2 = 0 then q else q + 1

/-- Decision of 2 ^ j ≤ n / d by integer comparisons, for a signed
exponent j. -/
def pow2leFrac (j : Int) (n d : Nat) : Bool :=
  if 0 ≤ j then d * 2 ^ j.toNat ≤ n else d ≤ n * 2 ^ (-j).toNat

/-- Floor of the base-two logarithm of the fraction n / d, computed from
the bit lengths of numerator and denominator and corrected by at most
one. -/
def ilog2Frac (n d : Nat) : Int :=
  let k : Int := (natLog2 n : Int) - (natLog2 d : Int)
  if pow2leFrac (k + 1) n d then k + 1 else if pow2leFrac k n d then k else k - 1

/-- Correctly rounded IEEE-754 binary64 value of the fraction n / d: the
significand is rounded to 53 bits with ties to even, and the result is
returned as an exact fraction, numerator and power-of-two denominator.
CPython true division of two ints and float multiplication by an exact
constant both return the correctly rounded double of the exact result, so
this function is the arithmetic of the source pipeline.  Overflow and
subnormal thresholds are not modelled: the model rounds to 53 significant
bits at every magnitude, which can only differ from hardware beyond
doubles of magnitude 2 to the 1024 or below 2 to the -1022, where a
two-decimal rendering is unaffected. -/
def floatDivFrac (n d : Nat) : Nat × Nat :=
  if n = 0 then (0, 1)
  else
    let s := 52 - ilog2Frac n d
    if 0 ≤ s then
      (roundHalfEvenDiv (n * 2 ^ s.toNat) d, 2 ^ s.toNat)
    else
      (roundHalfEvenDiv n (d * 2 ^ (-s).toNat) * 2 ^ (-s).toNat, 1)

/-- Exact rational value of a fraction returned by floatDivFrac. -/
def fracVal (p : Nat × Nat) : ℚ := (p.1 : ℚ) / (p.2 : ℚ)

/-- Two-digit zero-padded rendering of a number below 100. -/
def pad2 (n : Nat) : String :=
  if n < 10 then "0" ++ Nat.repr n else Nat.repr n

/-- Conversion-rate string of calculate_retention_metrics, embedding the
float pipeline of the source expression: the division of the two counts
is one correctly rounded double division, the multiplication by 100 one
correctly rounded double multiplication, and the format specifier .2f
renders the exact value of the resulting double to two decimals with ties
to even; the literal 0% is returned when the denominator is zero. -/
def conversion_rate (total_anonymous total_authenticated : Nat) : String :=
  if 0 < total_anonymous + total_authenticated then
    let x := floatDivFrac total_authenticated (total_anonymous + total_authenticated)
    let y := floatDivFrac (x.1 * 100) x.2
    let centi := roundHalfEvenDiv (y.1 * 100) y.2
    Nat.repr (centi / 100) ++ "." ++ pad2 (centi % 100) ++ "%"
  else "0%"

/-- Values passed as keyword arguments to an ORM constructor. -/
inductive PyVal where
  | nat (v : Nat)
  | str (v : String)
deriving DecidableEq, Repr

/-- Exceptions the embedded operations can surface: the TypeError raised
by the declarative constructor on an unknown keyword argument, and a
store-level failure (SQLAlchemyError). -/
inductive PyErr where
  | typeError (kw : String)
  | storeError
deriving DecidableEq, Repr

/-- One row of the retention_analytics table
(app/models/user_model.py, class RetentionAnalytics).  The model defines
exactly these columns; in particular it has no inactive_users_48hr,
inactive_users_1wk or inactive_users_1yr column.  The timestamp default of
the model is a fixed value computed when the class is defined, modelled
here as 0; the conversion_rate column has no default and the empty string
stands for its unset state. -/
structure RetentionRow where
  timestamp : Int := 0
  total_anonymous_users : Nat := 0
  total_authenticated_users : Nat := 0
  conversion_rate : String := ""
  inactive_users_24hr : Nat := 0
deriving DecidableEq, Repr

/-- Attribute names defined on the RetentionAnalytics class. -/
def retentionAttrs : List String :=
  ["id", "timestamp", "total_anonymous_users", "total_authenticated_users",
   "conversion_rate", "inactive_users_24hr"]

/-- Assignment of one keyword argument onto a retention row. -/
def setRetentionAttr (row : RetentionRow) (kv : String × PyVal) : RetentionRow :=
  match kv with
  | ("total_anonymous_users", .nat v) => { row with total_anonymous_users := v }
  | ("total_authenticated_users", .nat v) => { row with total_authenticated_users := v }
  | ("conversion_rate", .str v) => { row with conversion_rate := v }
  | ("inactive_users_24hr", .nat v) => { row with inactive_users_24hr := v }
  | _ => row

/-- The declarative constructor RetentionAnalytics(**kwargs): SQLAlchemy
raises TypeError at the first keyword that is not an attribute of the
class, otherwise it assigns every keyword onto a default instance. -/
def mkRetentionAnalytics (kwargs : List (String × PyVal)) : Except PyErr RetentionRow :=
  match kwargs.find? (fun kv => !(retentionAttrs.contains kv.fst)) with
  | some kv => .error (.typeError kv.fst)
  | none => .ok (kwargs.foldl setRetentionAttr {})

/-- State seen by the analytics service: the users table and the
retention_analytics table. -/
structure AState where
  users : List User
  snapshots : List RetentionRow
deriving DecidableEq, Repr

/-- AnalyticsService.calculate_retention_metrics.  The six scalar queries
are evaluated against the users table; scalarFault models a store failure
raised by them (the function has no try/except, so it propagates).  The
counts, the conversion rate and the RetentionAnalytics construction follow
the source line by line; on success the new row is appended and committed. -/
def calculate_retention_metrics (scalarFault : Bool) (st : AState) (now : Int) :
    Except PyErr AState :=
  if scalarFault then .error .storeError
  else
    let total_anonymous := countRole st.users .ANONYMOUS
    let total_authenticated := countRole st.users .AUTHENTICATED
    let rate := conversion_rate total_anonymous total_authenticated
    match mkRetentionAnalytics
      [("total_anonymous_users", .nat total_anonymous),
       ("total_authenticated_users", .nat total_authenticated),
       ("conversion_rate", .str rate),
       ("inactive_users_24hr", .nat (inactive_users_24hr st.users now)),
       ("inactive_users_48hr", .nat (inactive_users_48hr st.users now)),
       ("inactive_users_1wk", .nat (inactive_users_1wk st.users now)),
       ("inactive_users_1yr", .nat (inactive_users_1yr st.users now))] with
    | .error e => .error e
    | .ok row => .ok { st with snapshots := st.snapshots ++ [row] }

/-! ## User lifecycle service (app/services/user_service.py) -/

/-- UserService._execute_query followed by .scalars().first(), as used by
UserService._fetch_user: the helper wraps the store call in try/except
SQLAlchemyError, rolls back on failure and returns None, so a store fault
yields none instead of an exception. -/
def _fetch_user (fault : Bool) (db : List User) (p : User → Bool) : Option User :=
  if fault then none else db.find? p

/-- UserService.get_by_id. -/
def get_by_id (fault : Bool) (db : List User) (uid : Nat) : Option User :=
  _fetch_user fault db fun u => u.id == uid

/-- UserService.get_by_email. -/
def get_by_email (fault : Bool) (db : List User) (email : String) : Option User :=
  _fetch_user fault db fun u => u.email == email

/-- UserService.count: select count() from users, with no try/except, so
a store fault propagates as an error instead of a sentinel. -/
def count (fault : Bool) (db : List User) : Except PyErr Nat :=
  if fault then .error .storeError else .ok db.length

/-- UserService.login_user.  maxAttempts is settings.max_login_attempts
and verify is the opaque verify_password capability.  The lookup goes
through get_by_email (whose internal handler makes it silent), then the
source checks email_verified, then is_locked, then the password; every
mutating branch persists before returning. -/
def login_user (maxAttempts : Nat) (verify : String → Option String → Bool)
    (db : List User) (email password : String) (now : Int) :
    List User × Option User :=
  match get_by_email false db email with
  | none => (db, none)
  | some user =>
    if user.email_verified == false then (db, none)
    else if user.is_locked then (db, none)
    else if verify password user.hashed_password then
      let u := { user with failed_login_attempts := 0, last_login_at := some now }
      (persist db u, some u)
    else
      let u1 := { user with failed_login_attempts := user.failed_login_attempts + 1 }
      let u2 := if maxAttempts ≤ u1.failed_login_attempts then { u1 with is_locked := true } else u1
      (persist db u2, none)

/-- UserService.verify_email_with_token.  The user is fetched by primary
key (session.get); on a token match the source sets email_verified,
clears the token, promotes ANONYMOUS to AUTHENTICATED and commits. -/
def verify_email_with_token (db : List User) (uid : Nat) (token : String) :
    List User × Bool :=
  match db.find? (fun u => u.id == uid) with
  | none => (db, false)
  | some user =>
    if user.verification_token == some token then
      let u1 := { user with email_verified := true, verification_token := none }
      let u2 :=
        if u1.role == some UserRole.ANONYMOUS then { u1 with role := some UserRole.AUTHENTICATED }
        else u1
      (persist db u2, true)
    else (db, false)

/-- UserService.create, for an input that already passed UserCreate
validation.  Modelled from the spec for the payload shape only:
app/schemas/user_schemas.py is not in the source tree, and section 4.1 of
the spec gives UserCreate a required unique email, a required password and
optional profile fields.  The logic itself follows the source: duplicate
email check, password hashing (opaque parameter), the nickname retry loop
abstracted by its exit value nickname, role ADMIN for the very first user
and ANONYMOUS otherwise, email_verified set only for ADMIN, a verification
token generated unconditionally, then add and commit. -/
def create (hash : String → String) (token nickname : String) (newId : Nat)
    (db : List User) (email password : String) : List User × Option User :=
  if (get_by_email false db email).isSome then (db, none)
  else
    let role := if db.length == 0 then UserRole.ADMIN else UserRole.ANONYMOUS
    let user : User :=
      { id := newId
        email := email
        nickname := some nickname
        hashed_password := some (hash password)
        role := some role
        email_verified := role == UserRole.ADMIN
        verification_token := some token }
    (db ++ [user], some user)

/-- Field names accepted by the UserUpdate schema.  Modelled from the
spec: app/schemas/user_schemas.py is not in the source tree; sections 3
and 4.1 give the patch optional profile fields plus role. -/
def userUpdateFields : List String :=
  ["nickname", "email", "first_name", "last_name", "bio", "role"]

/-- Parse of a role value as submitted in an update patch. -/
def roleOfString (s : String) : Option UserRole :=
  match s with
  | "ANONYMOUS" => some .ANONYMOUS
  | "AUTHENTICATED" => some .AUTHENTICATED
  | "MANAGER" => some .MANAGER
  | "ADMIN" => some .ADMIN
  | _ => none

/-- UserUpdate schema validation of the cleaned patch: every key must be
a schema field and a role value must name a UserRole member. -/
def validPatch (cleaned : List (String × String)) : Bool :=
  cleaned.all fun kv =>
    userUpdateFields.contains kv.1 && (kv.1 != "role" || (roleOfString kv.2).isSome)

/-- Application of one validated patch field to a user row. -/
def applyField (u : User) (kv : String × String) : User :=
  match kv.1 with
  | "nickname" => { u with nickname := some kv.2 }
  | "email" => { u with email := kv.2 }
  | "first_name" => { u with first_name := some kv.2 }
  | "last_name" => { u with last_name := some kv.2 }
  | "bio" => { u with bio := some kv.2 }
  | "role" => { u with role := roleOfString kv.2 }
  | _ => u

/-- UserService.update.  Step 1 drops the None values of the patch and
fails if nothing remains; step 2 validates against UserUpdate; step 3
rejects a role change unless the acting user holds the role name ADMIN;
step 4 runs the UPDATE query (execFault models a store failure there,
caught by the surrounding except which rolls back and returns None); a
zero rowcount, meaning no row with that id, also yields None. -/
def update (execFault : Bool) (db : List User) (uid : Nat)
    (patch : List (String × Option String)) (actorRole : Option String) :
    List User × Option User :=
  let cleaned := patch.filterMap fun kv => kv.2.map fun v => (kv.1, v)
  if cleaned.isEmpty then (db, none)
  else if !(validPatch cleaned) then (db, none)
  else if cleaned.any (fun kv => kv.1 == "role") && actorRole != some "ADMIN" then (db, none)
  else if execFault then (db, none)
  else
    match db.find? (fun u => u.id == uid) with
    | none => (db, none)
    | some u =>
      let u2 := cleaned.foldl applyField u
      (persist db u2, some u2)

/-- One email handed to the email collaborator. -/
structure SentEmail where
  recipient : String
  kind : String
  link : String
deriving DecidableEq, Repr

/-- UserService.invite_user.  token is the freshly generated verification
token, newId the id the store assigns to the stub row, insertOk the
outcome of add plus commit (false models a store failure there, caught by
the except which rolls back and returns False); on success the invitation
email is sent with the link embedding the token and the call returns
True. -/
def invite_user (token : String) (newId : Nat) (insertOk : Bool) (baseUrl : String)
    (db : List User) (email : String) (inviter_id : Nat) :
    List User × List SentEmail × Bool :=
  let user : User :=
    { id := newId
      email := email
      invited_by_user_id := some inviter_id
      verification_token := some token }
  if insertOk then
    let link := baseUrl ++ "/register?token=" ++ token
    (db ++ [user], [{ recipient := email, kind := "invitation", link := link }], true)
  else
    (db, [], false)

/-- Inactivity in the words of the claims: the user has a non-null
last_login_at strictly earlier than now minus the window. -/
def specInactive (u : User) (now window : Int) : Prop :=
  ∃ t, u.last_login_at = some t ∧ t < now - window

instance (u : User) (now window : Int) : Decidable (specInactive u now window) :=
  decidable_of_iff (sqlLt u.last_login_at (now - window) = true) (by
    cases h : u.last_login_at <;> simp [sqlLt, specInactive, h])

/-- Rounding of a rational to the nearest integer with ties to even,
written from the words of the spec. -/
def specRoundHalfEven (x : ℚ) : ℤ :=
  let f := ⌊x⌋
  if x - f < 1 / 2 then f
  else if (1 : ℚ) / 2 < x - f then f + 1
  else if f % 2 = 0 then f else f + 1

/-- Conversion rate in the words of the spec: authenticated divided by
anonymous plus authenticated, times 100, rounded to exactly two decimals,
rendered with a percent sign, and the literal 0% on a zero denominator. -/
def specConversionRate (anon auth : Nat) : String :=
  if anon + auth = 0 then "0%"
  else
    let x : ℚ := (auth : ℚ) / ((anon : ℚ) + (auth : ℚ)) * 100
    let c : ℤ := specRoundHalfEven (x * 100)
    Nat.repr (c.toNat / 100) ++ "." ++ pad2 (c.toNat % 100) ++ "%"

/-- Integer evaluation of specConversionRate: the same exact-rational
half-even rounding to two decimals, computed by integer division; the
helper theorem specConversionRateInt_eq_spec proves both definitions
equal, so this form serves to evaluate the spec reading on concrete
counts. -/
def specConversionRateInt (anon auth : Nat) : String :=
  if anon + auth = 0 then "0%"
  else
    let centi := roundHalfEvenDiv (auth * 10000) (anon + auth)
    Nat.repr (centi / 100) ++ "." ++ pad2 (centi % 100) ++ "%"

/-- Reading of rounded to two decimals with ties away from zero (the
school rule), on the exact rational: floor of the value plus one half,
computed by integer division.  Used to show that the code follows no
fixed decimal tie rule. -/
def specConversionRateHalfUp (anon auth : Nat) : String :=
  if anon + auth = 0 then "0%"
  else
    let centi := (auth * 10000 * 2 + (anon + auth)) / ((anon + auth) * 2)
    Nat.repr (centi / 100) ++ "." ++ pad2 (centi % 100) ++ "%"

/-! ## Helper lemmas -/

theorem sqlLt_mono {v : Option Int} {a b : Int} (hab : a ≤ b) (h : sqlLt v a = true) :
    sqlLt v b = true := by
  cases v with
  | none => simp [sqlLt] at h
  | some t => simp [sqlLt] at h ⊢; omega

theorem countInactive_eq_filter (users : List User) (now w : Int) :
    (users.countP fun u => sqlLt u.last_login_at (now - w))
      = (users.filter fun u => decide (specInactive u now w)).length := by
  have hp : (fun u : User => sqlLt u.last_login_at (now - w))
      = fun u : User => decide (specInactive u now w) := by
    funext u
    cases h : u.last_login_at <;> simp [sqlLt, specInactive, h]
  rw [hp, List.countP_eq_length_filter]

theorem countInactive_cons_none (users : List User) (now w : Int) (u : User)
    (h : u.last_login_at = none) :
    ((u :: users).countP fun v => sqlLt v.last_login_at (now - w))
      = (users.countP fun v => sqlLt v.last_login_at (now - w)) := by
  rw [List.countP_cons]
  simp [sqlLt, h]

theorem roundHalfEvenDiv_eq_spec (n d : Nat) (hd : 0 < d) :
    (roundHalfEvenDiv n d : ℤ) = specRoundHalfEven ((n : ℚ) / (d : ℚ)) := by
  have hn : d * (n / d) + n % d = n := Nat.div_add_mod n d
  have hrd : n % d < d := Nat.mod_lt _ hd
  have hdq : (0 : ℚ) < (d : ℚ) := by exact_mod_cast hd
  have hnq : (n : ℚ) = (d : ℚ) * ((n / d : ℕ) : ℚ) + ((n % d : ℕ) : ℚ) := by
    exact_mod_cast hn.symm
  have hfrac : (n : ℚ) / (d : ℚ) - ((n / d : ℕ) : ℚ) = ((n % d : ℕ) : ℚ) / (d : ℚ) := by
    rw [hnq]
    field_simp
  have h0 : (0 : ℚ) ≤ ((n % d : ℕ) : ℚ) / (d : ℚ) := by positivity
  have h1 : ((n % d : ℕ) : ℚ) / (d : ℚ) < 1 := by
    rw [div_lt_one hdq]
    exact_mod_cast hrd
  have hfloor : ⌊(n : ℚ) / (d : ℚ)⌋ = ((n / d : ℕ) : ℤ) := by
    have hx : (n : ℚ) / (d : ℚ) = ((n % d : ℕ) : ℚ) / (d : ℚ) + ((n / d : ℕ) : ℚ) := by
      rw [hnq]; field_simp; ring
    rw [hx, Int.floor_add_nat]
    have hz : ⌊((n % d : ℕ) : ℚ) / (d : ℚ)⌋ = 0 := by
      rw [Int.floor_eq_zero_iff]
      exact ⟨h0, h1⟩
    rw [hz, zero_add]
  have hsub : (n : ℚ) / (d : ℚ) - ((⌊(n : ℚ) / (d : ℚ)⌋ : ℤ) : ℚ)
      = ((n % d : ℕ) : ℚ) / (d : ℚ) := by
    rw [hfloor, Int.cast_natCast]
    exact hfrac
  have hlt : ((n : ℚ) / (d : ℚ) - ((⌊(n : ℚ) / (d : ℚ)⌋ : ℤ) : ℚ) < 1 / 2)
      ↔ (2 * (n % d) < d) := by
    rw [hsub, div_lt_div_iff₀ hdq (by norm_num : (0 : ℚ) < 2), one_mul]
    constructor
    · intro h
      have h' : (n % d) * 2 < d := by exact_mod_cast h
      omega
    · intro h
      have h' : (n % d) * 2 < d := by omega
      exact_mod_cast h'
  have hgt : ((1 : ℚ) / 2 < (n : ℚ) / (d : ℚ) - ((⌊(n : ℚ) / (d : ℚ)⌋ : ℤ) : ℚ))
      ↔ (d < 2 * (n % d)) := by
    rw [hsub, div_lt_div_iff₀ (by norm_num : (0 : ℚ) < 2) hdq, one_mul]
    constructor
    · intro h
      have h' : d < (n % d) * 2 := by exact_mod_cast h
      omega
    · intro h
      have h' : d < (n % d) * 2 := by omega
      exact_mod_cast h'
  rcases Nat.lt_trichotomy (2 * (n % d)) d with h | h | h
  · have hc : roundHalfEvenDiv n d = n / d := by
      unfold roundHalfEvenDiv; simp [h]
    have hs : specRoundHalfEven ((n : ℚ) / (d : ℚ)) = ⌊(n : ℚ) / (d : ℚ)⌋ := by
      unfold specRoundHalfEven
      simp only []
      rw [if_pos (hlt.mpr h)]
    rw [hc, hs, hfloor]
  · have hc1 : ¬ (2 * (n % d) < d) := by omega
    have hc2 : ¬ (d < 2 * (n % d)) := by omega
    have hs1 : ¬ ((n : ℚ) / (d : ℚ) - ((⌊(n : ℚ) / (d : ℚ)⌋ : ℤ) : ℚ) < 1 / 2) := by
      rw [hlt]; exact hc1
    have hs2 : ¬ ((1 : ℚ) / 2 < (n : ℚ) / (d : ℚ) - ((⌊(n : ℚ) / (d : ℚ)⌋ : ℤ) : ℚ)) := by
      rw [hgt]; exact hc2
    by_cases hq : (n / d) % 2 = 0
    · have hqz : (⌊(n : ℚ) / (d : ℚ)⌋ % 2 = 0) := by rw [hfloor]; omega
      have hc : roundHalfEvenDiv n d = n / d := by
        unfold roundHalfEvenDiv; simp [hc1, hc2, hq]
      have hs : specRoundHalfEven ((n : ℚ) / (d : ℚ)) = ⌊(n : ℚ) / (d : ℚ)⌋ := by
        unfold specRoundHalfEven
        simp only []
        rw [if_neg hs1, if_neg hs2, if_pos hqz]
      rw [hc, hs, hfloor]
    · have hqz : ¬ (⌊(n : ℚ) / (d : ℚ)⌋ % 2 = 0) := by rw [hfloor]; omega
      have hc : roundHalfEvenDiv n d = n / d + 1 := by
        unfold roundHalfEvenDiv; simp [hc1, hc2, hq]
      have hs : specRoundHalfEven ((n : ℚ) / (d : ℚ)) = ⌊(n : ℚ) / (d : ℚ)⌋ + 1 := by
        unfold specRoundHalfEven
        simp only []
        rw [if_neg hs1, if_neg hs2, if_neg hqz]
      rw [hc, hs, hfloor]
      push_cast
      ring
  · have hc1 : ¬ (2 * (n % d) < d) := by omega
    have hc : roundHalfEvenDiv n d = n / d + 1 := by
      unfold roundHalfEvenDiv; simp [hc1, h]
    have hs : specRoundHalfEven ((n : ℚ) / (d : ℚ)) = ⌊(n : ℚ) / (d : ℚ)⌋ + 1 := by
      unfold specRoundHalfEven
      simp only []
      rw [if_neg (by rw [hlt]; omega), if_pos (hgt.mpr h)]
    rw [hc, hs, hfloor]
    push_cast
    ring

theorem specConversionRateInt_eq_spec :
    ∀ anon auth : Nat, specConversionRateInt anon auth = specConversionRate anon auth := by
  intro anon auth
  by_cases h : anon + auth = 0
  · simp [specConversionRateInt, specConversionRate, h]
  · have hpos : 0 < anon + auth := Nat.pos_of_ne_zero h
    have hden : ((anon : ℚ) + (auth : ℚ)) ≠ 0 := by
      have h2 : ((anon + auth : ℕ) : ℚ) ≠ 0 := Nat.cast_ne_zero.mpr h
      push_cast at h2
      exact h2
    have hx : ((auth : ℚ) / ((anon : ℚ) + (auth : ℚ)) * 100) * 100
        = ((auth * 10000 : ℕ) : ℚ) / ((anon + auth : ℕ) : ℚ) := by
      push_cast
      field_simp
      ring
    simp only [specConversionRateInt, specConversionRate, h, if_false]
    rw [hx, ← roundHalfEvenDiv_eq_spec (auth * 10000) (anon + auth) hpos]
    simp [Int.toNat_ofNat]

theorem log2Aux_spec :
    ∀ (fuel n : Nat), 1 ≤ n → n ≤ fuel →
      2 ^ log2Aux fuel n ≤ n ∧ n < 2 ^ (log2Aux fuel n + 1) := by
  intro fuel
  induction fuel with
  | zero => intro n h1 h2; omega
  | succ fuel ih =>
    intro n h1 h2
    simp only [log2Aux]
    by_cases h : 2 ≤ n
    · rw [if_pos h]
      have hrec := ih (n / 2) (by omega) (by omega)
      have e1 : 2 ^ (log2Aux fuel (n / 2) + 1) = 2 * 2 ^ log2Aux fuel (n / 2) := by ring
      have e2 : 2 ^ (log2Aux fuel (n / 2) + 1 + 1) = 2 * 2 ^ (log2Aux fuel (n / 2) + 1) := by
        ring
      constructor
      · rw [e1]; omega
      · rw [e2]; omega
    · rw [if_neg h]
      simp only [pow_zero, pow_one]
      omega

theorem natLog2_le {n : Nat} (h : 1 ≤ n) : 2 ^ natLog2 n ≤ n :=
  (log2Aux_spec n n h le_rfl).1

theorem natLog2_lt {n : Nat} (h : 1 ≤ n) : n < 2 ^ (natLog2 n + 1) :=
  (log2Aux_spec n n h le_rfl).2

theorem abs_specRoundHalfEven_sub (x : ℚ) : |(specRoundHalfEven x : ℚ) - x| ≤ 1 / 2 := by
  have h1 : ((⌊x⌋ : ℤ) : ℚ) ≤ x := Int.floor_le x
  have h2 : x < ⌊x⌋ + 1 := Int.lt_floor_add_one x
  simp only [specRoundHalfEven]
  split_ifs with ha hb hc <;> rw [abs_le] <;> constructor <;> push_cast <;> linarith

theorem pow2leFrac_le {j : Int} {n d : Nat} (hd : 0 < d) (h : pow2leFrac j n d = true) :
    (2 : ℚ) ^ j ≤ (n : ℚ) / (d : ℚ) := by
  have hdq : (0 : ℚ) < (d : ℚ) := by exact_mod_cast hd
  unfold pow2leFrac at h
  by_cases hj : 0 ≤ j
  · rw [if_pos hj] at h
    have h' : d * 2 ^ j.toNat ≤ n := of_decide_eq_true h
    have hzj : (2 : ℚ) ^ j = (2 : ℚ) ^ j.toNat := by
      rw [← zpow_natCast]
      congr 1
      omega
    rw [hzj, le_div_iff₀ hdq]
    have h'' : 2 ^ j.toNat * d ≤ n := by rw [Nat.mul_comm]; exact h'
    exact_mod_cast h''
  · rw [if_neg hj] at h
    have h' : d ≤ n * 2 ^ (-j).toNat := of_decide_eq_true h
    have hzj : (2 : ℚ) ^ j = ((2 : ℚ) ^ (-j).toNat)⁻¹ := by
      rw [← zpow_natCast, ← zpow_neg]
      congr 1
      omega
    rw [hzj, inv_eq_one_div,
      div_le_div_iff₀ (by positivity : (0 : ℚ) < (2 : ℚ) ^ (-j).toNat) hdq, one_mul]
    exact_mod_cast h'

theorem ilog2Frac_le {n d : Nat} (hn : 0 < n) (hd : 0 < d) :
    (2 : ℚ) ^ ilog2Frac n d ≤ (n : ℚ) / (d : ℚ) := by
  have hdq : (0 : ℚ) < (d : ℚ) := by exact_mod_cast hd
  simp only [ilog2Frac]
  split_ifs with h1 h2
  · exact pow2leFrac_le hd h1
  · exact pow2leFrac_le hd h2
  · have ha : 2 ^ natLog2 n ≤ n := natLog2_le hn
    have hb : d < 2 ^ (natLog2 d + 1) := natLog2_lt hd
    have hsplit : (natLog2 n : ℤ) - (natLog2 d : ℤ) - 1
        = (natLog2 n : ℤ) + -(((natLog2 d + 1 : Nat) : ℤ)) := by push_cast; ring
    rw [hsplit, zpow_add₀ (two_ne_zero), zpow_natCast, zpow_neg, zpow_natCast,
      ← div_eq_mul_inv,
      div_le_div_iff₀ (by positivity : (0 : ℚ) < (2 : ℚ) ^ (natLog2 d + 1)) hdq]
    exact_mod_cast Nat.mul_le_mul ha (Nat.le_of_lt hb)

theorem floatDivFrac_den_pos (n d : Nat) : 0 < (floatDivFrac n d).2 := by
  simp only [floatDivFrac]
  split_ifs <;> first
    | exact Nat.one_pos
    | exact Nat.pos_pow_of_pos _ (by decide)

theorem floatDivFrac_close {n d : Nat} (hd : 0 < d) :
    |fracVal (floatDivFrac n d) - (n : ℚ) / (d : ℚ)| ≤ ((n : ℚ) / (d : ℚ)) / 2 ^ 52 := by
  have hdq : (0 : ℚ) < (d : ℚ) := by exact_mod_cast hd
  by_cases hn : n = 0
  · subst hn
    simp [floatDivFrac, fracVal]
  · have hn' : 0 < n := Nat.pos_of_ne_zero hn
    have hnq : (0 : ℚ) < (n : ℚ) := by exact_mod_cast hn'
    have hle : (2 : ℚ) ^ ilog2Frac n d ≤ (n : ℚ) / (d : ℚ) := ilog2Frac_le hn' hd
    simp only [floatDivFrac, if_neg hn]
    set e := ilog2Frac n d with he
    by_cases hs : 0 ≤ 52 - e
    · rw [if_pos hs]
      simp only [fracVal]
      set t := (52 - e).toNat with ht
      have htz : (t : ℤ) = 52 - e := Int.toNat_of_nonneg hs
      set m := roundHalfEvenDiv (n * 2 ^ t) d with hm
      have hT : (0 : ℚ) < (2 : ℚ) ^ t := by positivity
      have herr : |(m : ℚ) - (n : ℚ) * (2 : ℚ) ^ t / (d : ℚ)| ≤ 1 / 2 := by
        have h1 := roundHalfEvenDiv_eq_spec (n * 2 ^ t) d hd
        have h2 := abs_specRoundHalfEven_sub (((n * 2 ^ t : ℕ) : ℚ) / (d : ℚ))
        rw [← h1] at h2
        push_cast at h2
        exact h2
      have hzt : (2 : ℚ) ^ t = (2 : ℚ) ^ ((52 : ℤ) - e) := by
        rw [← zpow_natCast (2 : ℚ) t, htz]
      have hprod : (2 : ℚ) ^ e * (2 : ℚ) ^ ((52 : ℤ) - e) = (2 : ℚ) ^ (52 : ℕ) := by
        rw [← zpow_add₀ (two_ne_zero (α := ℚ))]
        norm_num
      have hmain : 1 / 2 / (2 : ℚ) ^ t ≤ ((n : ℚ) / (d : ℚ)) / 2 ^ 52 := by
        rw [div_le_div_iff₀ hT (by positivity)]
        have hmul : (2 : ℚ) ^ e * (2 : ℚ) ^ ((52 : ℤ) - e)
            ≤ ((n : ℚ) / (d : ℚ)) * (2 : ℚ) ^ ((52 : ℤ) - e) :=
          mul_le_mul_of_nonneg_right hle (by positivity)
        rw [hprod] at hmul
        rw [hzt]
        have hp : (0 : ℚ) < (2 : ℚ) ^ (52 : ℕ) := by positivity
        linarith
      have hkey : (m : ℚ) / ((2 : ℚ) ^ t) - (n : ℚ) / (d : ℚ)
          = ((m : ℚ) - (n : ℚ) * (2 : ℚ) ^ t / (d : ℚ)) / ((2 : ℚ) ^ t) := by
        field_simp
        ring
      push_cast
      rw [hkey, abs_div, abs_of_pos hT]
      calc |(m : ℚ) - (n : ℚ) * (2 : ℚ) ^ t / (d : ℚ)| / (2 : ℚ) ^ t
          ≤ (1 / 2) / (2 : ℚ) ^ t := by gcongr
        _ ≤ ((n : ℚ) / (d : ℚ)) / 2 ^ 52 := hmain
    · rw [if_neg hs]
      simp only [fracVal]
      set t := (-(52 - e)).toNat with ht
      have htz : (t : ℤ) = e - 52 := by omega
      set m := roundHalfEvenDiv n (d * 2 ^ t) with hm
      have hT : (0 : ℚ) < (2 : ℚ) ^ t := by positivity
      have hd2 : 0 < d * 2 ^ t := Nat.mul_pos hd (Nat.pos_pow_of_pos _ (by decide))
      have herr : |(m : ℚ) - (n : ℚ) / ((d : ℚ) * (2 : ℚ) ^ t)| ≤ 1 / 2 := by
        have h1 := roundHalfEvenDiv_eq_spec n (d * 2 ^ t) hd2
        have h2 := abs_specRoundHalfEven_sub ((n : ℚ) / ((d * 2 ^ t : ℕ) : ℚ))
        rw [← h1] at h2
        push_cast at h2
        exact h2
      have hzt : (2 : ℚ) ^ t = (2 : ℚ) ^ (e - (52 : ℤ)) := by
        rw [← zpow_natCast (2 : ℚ) t, htz]
      have hprod : (2 : ℚ) ^ e * (2 : ℚ) ^ (-(52 : ℤ)) = (2 : ℚ) ^ (e - (52 : ℤ)) := by
        rw [← zpow_add₀ (two_ne_zero (α := ℚ)), ← sub_eq_add_neg]
      have hmain : 1 / 2 * (2 : ℚ) ^ t ≤ ((n : ℚ) / (d : ℚ)) / 2 ^ 52 := by
        have hmul : (2 : ℚ) ^ e * (2 : ℚ) ^ (-(52 : ℤ))
            ≤ ((n : ℚ) / (d : ℚ)) * (2 : ℚ) ^ (-(52 : ℤ)) :=
          mul_le_mul_of_nonneg_right hle (by positivity)
        rw [hprod] at hmul
        have hinv : ((n : ℚ) / (d : ℚ)) * (2 : ℚ) ^ (-(52 : ℤ))
            = ((n : ℚ) / (d : ℚ)) / 2 ^ 52 := by
          rw [zpow_neg, ← div_eq_mul_inv]
          norm_num
        rw [hinv] at hmul
        rw [hzt]
        linarith [zpow_pos (by norm_num : (0 : ℚ) < 2) (e - (52 : ℤ))]
      have hkey : (m : ℚ) * (2 : ℚ) ^ t - (n : ℚ) / (d : ℚ)
          = ((m : ℚ) - (n : ℚ) / ((d : ℚ) * (2 : ℚ) ^ t)) * ((2 : ℚ) ^ t) := by
        field_simp
        ring
      push_cast
      rw [div_one, hkey, abs_mul, abs_of_pos hT]
      calc |(m : ℚ) - (n : ℚ) / ((d : ℚ) * (2 : ℚ) ^ t)| * (2 : ℚ) ^ t
          ≤ (1 / 2) * (2 : ℚ) ^ t := by gcongr
        _ ≤ ((n : ℚ) / (d : ℚ)) / 2 ^ 52 := hmain

/-! ## Claims -/

/-- C1: the claim states that every run of calculate_retention_metrics
writes exactly one new RetentionSnapshot row carrying all four inactivity
counts.  On the code as written this is false for every store state: the
RetentionAnalytics model defines only inactive_users_24hr, so the
constructor call with the inactive_users_48hr, inactive_users_1wk and
inactive_users_1yr keywords raises TypeError at the first unknown keyword
and no row is ever added.  This theorem evaluates the code on an
arbitrary state and shows the raised error. -/
theorem c1_calculate_retention_metrics_always_raises :
    ∀ (st : AState) (now : Int),
      calculate_retention_metrics false st now
        = Except.error (PyErr.typeError "inactive_users_48hr") :=
  fun _ _ => rfl

/-- C9: a user with a null last_login_at is counted in none of the four
inactivity counts, and each count is exactly the number of users whose
last_login_at is non-null and strictly earlier than now minus the window
(24 hours, 48 hours, 1 week, 365 days). -/
theorem c9_null_last_login_excluded :
    ∀ (users : List User) (now : Int),
      (inactive_users_24hr users now
          = (users.filter fun u => decide (specInactive u now 86400)).length
        ∧ inactive_users_48hr users now
          = (users.filter fun u => decide (specInactive u now 172800)).length
        ∧ inactive_users_1wk users now
          = (users.filter fun u => decide (specInactive u now 604800)).length
        ∧ inactive_users_1yr users now
          = (users.filter fun u => decide (specInactive u now 31536000)).length)
      ∧ ∀ u : User, u.last_login_at = none →
          (inactive_users_24hr (u :: users) now = inactive_users_24hr users now
            ∧ inactive_users_48hr (u :: users) now = inactive_users_48hr users now
            ∧ inactive_users_1wk (u :: users) now = inactive_users_1wk users now
            ∧ inactive_users_1yr (u :: users) now = inactive_users_1yr users now) :=
  fun users now =>
    ⟨⟨countInactive_eq_filter users now 86400,
      countInactive_eq_filter users now 172800,
      countInactive_eq_filter users now 604800,
      countInactive_eq_filter users now 31536000⟩,
     fun u h =>
      ⟨countInactive_cons_none users now 86400 u h,
       countInactive_cons_none users now 172800 u h,
       countInactive_cons_none users now 604800 u h,
       countInactive_cons_none users now 31536000 u h⟩⟩

/-- Witness for C9 at a concrete input: a default user row, whose
last_login_at is null, leaves all four counts over the empty store
unchanged. -/
theorem c9_null_last_login_excluded_witness :
    inactive_users_24hr [({} : User)] 0 = inactive_users_24hr [] 0
      ∧ inactive_users_48hr [({} : User)] 0 = inactive_users_48hr [] 0
      ∧ inactive_users_1wk [({} : User)] 0 = inactive_users_1wk [] 0
      ∧ inactive_users_1yr [({} : User)] 0 = inactive_users_1yr [] 0 :=
  (c9_null_last_login_excluded [] 0).2 {} rfl

/-- C10: over any user population and a single instant now, the four
inactivity counts form a monotone chain, one year at most one week at
most 48 hours at most 24 hours, because the windows are nested. -/
theorem c10_inactivity_counts_monotone :
    ∀ (users : List User) (now : Int),
      inactive_users_1yr users now ≤ inactive_users_1wk users now
        ∧ inactive_users_1wk users now ≤ inactive_users_48hr users now
        ∧ inactive_users_48hr users now ≤ inactive_users_24hr users now := by
  intro users now
  refine ⟨?_, ?_, ?_⟩ <;>
    exact List.countP_mono_left fun u _ h => sqlLt_mono (by omega) h

/-- C2 counterexample: the claim states that the conversion-rate string
equals the exact formula value rounded to exactly two decimals.  The
source formats a binary double, so at a decimal tie the direction is
decided by the binary representation error rather than by any decimal
rule: at anonymous 3999, authenticated 1 the exact value is 0.025 percent
and the code prints 0.03 while rounding the exact rational with ties to
even gives 0.02; at anonymous 3997, authenticated 3 the exact value is
0.075 percent and the code prints 0.07 while both the ties-to-even and
the ties-away-from-zero readings give 0.08.  The two inputs together rule
out every fixed decimal tie rule. -/
theorem c2_counterexample_decimal_ties :
    conversion_rate 3999 1 = "0.03%"
    ∧ specConversionRate 3999 1 = "0.02%"
    ∧ conversion_rate 3997 3 = "0.07%"
    ∧ specConversionRate 3997 3 = "0.08%"
    ∧ specConversionRateHalfUp 3999 1 = "0.03%"
    ∧ specConversionRateHalfUp 3997 3 = "0.08%" := by
  refine ⟨by decide, ?_, by decide, ?_, by decide, by decide⟩
  · rw [← specConversionRateInt_eq_spec]
    decide
  · rw [← specConversionRateInt_eq_spec]
    decide

/-- C2 amended: the conversion-rate string is the exact formula value
rounded to two decimals computed on the IEEE-754 double approximation of
the value.  On a zero denominator it is the literal 0 percent; otherwise
the string renders a centi-percentage c whose distance from the exact
authenticated over (anonymous plus authenticated) times 10000 is at most
one half plus 2 to the minus 37, i.e. half a unit in the last printed
place up to the accumulated double rounding error, which also decides
exact decimal ties; and the pair anonymous 5, authenticated 10 prints
66.67 percent. -/
theorem c2_conversion_rate_within_half_ulp :
    ∀ anon auth : Nat,
      (anon + auth = 0 → conversion_rate anon auth = "0%")
      ∧ (0 < anon + auth →
          ∃ c : Nat,
            conversion_rate anon auth
              = Nat.repr (c / 100) ++ "." ++ pad2 (c % 100) ++ "%"
            ∧ |(c : ℚ) - (auth : ℚ) / ((anon : ℚ) + (auth : ℚ)) * 100 * 100|
                ≤ 1 / 2 + 1 / 2 ^ 37)
      ∧ conversion_rate 5 10 = "66.67%" := by
  intro anon auth
  refine ⟨?_, ?_, by decide⟩
  · intro h0
    have hno : ¬ 0 < anon + auth := by omega
    simp [conversion_rate, hno]
  · intro h
    simp only [conversion_rate]
    rw [if_pos h]
    refine ⟨_, rfl, ?_⟩
    have hcast : ((anon + auth : ℕ) : ℚ) = (anon : ℚ) + (auth : ℚ) := by push_cast; ring
    have htq : (0 : ℚ) < ((anon + auth : ℕ) : ℚ) := by exact_mod_cast h
    have hed : (auth : ℚ) / ((anon : ℚ) + (auth : ℚ))
        = (auth : ℚ) / ((anon + auth : ℕ) : ℚ) := by rw [hcast]
    rw [hed]
    set r := (auth : ℚ) / ((anon + auth : ℕ) : ℚ) with hr
    have hr0 : 0 ≤ r := by positivity
    have hr1 : r ≤ 1 := by
      rw [hr, div_le_one htq]
      exact_mod_cast Nat.le_add_left auth anon
    set x := floatDivFrac auth (anon + auth) with hx
    have hx2 : 0 < x.2 := floatDivFrac_den_pos _ _
    have hxc : |fracVal x - r| ≤ r / 2 ^ 52 := floatDivFrac_close h
    have hfx0 : 0 ≤ fracVal x := by unfold fracVal; positivity
    have hrdiv : r / 2 ^ 52 ≤ 1 := by
      calc r / 2 ^ 52 ≤ r := div_le_self hr0 (by norm_num)
        _ ≤ 1 := hr1
    have hfx2 : fracVal x ≤ 2 := by
      have h1 := (abs_le.mp hxc).2
      linarith
    set y := floatDivFrac (x.1 * 100) x.2 with hy
    have hy2 : 0 < y.2 := floatDivFrac_den_pos _ _
    have hyc0 : |fracVal y - ((x.1 * 100 : ℕ) : ℚ) / ((x.2 : ℕ) : ℚ)|
        ≤ (((x.1 * 100 : ℕ) : ℚ) / ((x.2 : ℕ) : ℚ)) / 2 ^ 52 := floatDivFrac_close hx2
    have hval : ((x.1 * 100 : ℕ) : ℚ) / ((x.2 : ℕ) : ℚ) = 100 * fracVal x := by
      unfold fracVal; push_cast; ring
    rw [hval] at hyc0
    have hcen := roundHalfEvenDiv_eq_spec (y.1 * 100) y.2 hy2
    have hval2 : ((y.1 * 100 : ℕ) : ℚ) / ((y.2 : ℕ) : ℚ) = 100 * fracVal y := by
      unfold fracVal; push_cast; ring
    have hcerr : |((roundHalfEvenDiv (y.1 * 100) y.2 : ℕ) : ℚ) - 100 * fracVal y| ≤ 1 / 2 := by
      have h2 := abs_specRoundHalfEven_sub (((y.1 * 100 : ℕ) : ℚ) / ((y.2 : ℕ) : ℚ))
      rw [← hcen, hval2] at h2
      push_cast at h2 ⊢
      exact h2
    have hc30 : (30000 : ℚ) / 2 ^ 52 ≤ 1 / 2 ^ 37 := by norm_num
    have e1 := abs_le.mp hxc
    have e2 := abs_le.mp hyc0
    have e3 := abs_le.mp hcerr
    rw [abs_le]
    have hgoal : r * 100 * 100 = 10000 * r := by ring
    rw [hgoal]
    constructor
    · nlinarith [e1.1, e1.2, e2.1, e2.2, e3.1, e3.2, hfx2, hr1, hfx0, hr0, hc30]
    · nlinarith [e1.1, e1.2, e2.1, e2.2, e3.1, e3.2, hfx2, hr1, hfx0, hr0, hc30]

/-- Witness for the amended C2 at concrete inputs: the zero store prints
the literal 0 percent, and at anonymous 3999, authenticated 1 the printed
centi-percentage is within the stated bound of the exact value 2.5. -/
theorem c2_conversion_rate_within_half_ulp_witness :
    conversion_rate 0 0 = "0%"
    ∧ ∃ c : Nat,
        conversion_rate 3999 1 = Nat.repr (c / 100) ++ "." ++ pad2 (c % 100) ++ "%"
        ∧ |(c : ℚ) - ((1 : ℕ) : ℚ) / (((3999 : ℕ) : ℚ) + ((1 : ℕ) : ℚ)) * 100 * 100|
            ≤ 1 / 2 + 1 / 2 ^ 37 :=
  ⟨(c2_conversion_rate_within_half_ulp 0 0).1 rfl,
   (c2_conversion_rate_within_half_ulp 3999 1).2.1 (by decide)⟩

/-- C6 counterexample: the claim states that every operation catches
store-level failures and returns a sentinel.  UserService.count has no
handler: a store failure during its query propagates as an exception
rather than a sentinel value. -/
theorem c6_counterexample :
    count true [] = Except.error PyErr.storeError := rfl

/-- C6 amended: store failures are caught, rolled back and turned into a
sentinel only where the source installs a handler, namely the query
helper behind the lookups (_fetch_user), update and invite_user; count
and calculate_retention_metrics have no handler and propagate the
failure. -/
theorem c6_amended_fault_handling :
    ∀ (db : List User) (p : User → Bool) (uid : Nat)
      (patch : List (String × Option String)) (actor : Option String)
      (token : String) (newId : Nat) (baseUrl email : String) (inviter : Nat)
      (st : AState) (now : Int),
      _fetch_user true db p = none
        ∧ update true db uid patch actor = (db, none)
        ∧ invite_user token newId false baseUrl db email inviter = (db, [], false)
        ∧ count true db = Except.error PyErr.storeError
        ∧ calculate_retention_metrics true st now = Except.error PyErr.storeError := by
  intro db p uid patch actor token newId baseUrl email inviter st now
  refine ⟨rfl, ?_, rfl, rfl, rfl⟩
  simp [update]

/-- C3: login returns no user and leaves the store untouched when the
user is absent, the email is unverified, or the account is locked (even
when the password would verify, since verify is arbitrary there); on a
password mismatch it increments failed_login_attempts and the result is
locked exactly when the new count reaches the configured maximum; on a
match it resets the counter to zero, stamps last_login_at with the
current time, persists and returns the user. -/
theorem c3_login_lockout_and_success :
    ∀ (maxAttempts : Nat) (verify : String → Option String → Bool)
      (db : List User) (email password : String) (now : Int),
      (get_by_email false db email = none →
        login_user maxAttempts verify db email password now = (db, none))
      ∧ ∀ u : User, get_by_email false db email = some u →
          ((u.email_verified = false →
              login_user maxAttempts verify db email password now = (db, none))
           ∧ (u.email_verified = true → u.is_locked = true →
              login_user maxAttempts verify db email password now = (db, none))
           ∧ (u.email_verified = true → u.is_locked = false →
              verify password u.hashed_password = false →
              ∃ u2 : User,
                login_user maxAttempts verify db email password now = (persist db u2, none)
                ∧ u2.failed_login_attempts = u.failed_login_attempts + 1
                ∧ (u2.is_locked = true ↔ maxAttempts ≤ u.failed_login_attempts + 1)
                ∧ u2.id = u.id ∧ u2.email = u.email
                ∧ u2.last_login_at = u.last_login_at
                ∧ u2.hashed_password = u.hashed_password
                ∧ u2.email_verified = u.email_verified)
           ∧ (u.email_verified = true → u.is_locked = false →
              verify password u.hashed_password = true →
              login_user maxAttempts verify db email password now
                = (persist db { u with failed_login_attempts := 0, last_login_at := some now },
                   some { u with failed_login_attempts := 0, last_login_at := some now }))) := by
  intro maxAttempts verify db email password now
  constructor
  · intro hnone
    unfold login_user
    rw [hnone]
  · intro u hu
    refine ⟨?_, ?_, ?_, ?_⟩
    · intro hv
      unfold login_user
      rw [hu]
      simp [hv]
    · intro hv hl
      unfold login_user
      rw [hu]
      simp [hv, hl]
    · intro hv hl hpw
      unfold login_user
      rw [hu]
      simp only [hv, hl, hpw]
      by_cases hm : maxAttempts ≤ u.failed_login_attempts + 1
      · refine ⟨{ u with failed_login_attempts := u.failed_login_attempts + 1, is_locked := true }, ?_, rfl, ?_, rfl, rfl, rfl, rfl, hv⟩
        · simp [hm, hv, hl]
        · simp [hm]
      · refine ⟨{ u with failed_login_attempts := u.failed_login_attempts + 1 }, ?_, rfl, ?_, rfl, rfl, rfl, rfl, hv⟩
        · simp [hm, hv, hl]
        · simp [hl, hm]
    · intro hv hl hpw
      unfold login_user
      rw [hu]
      simp [hv, hl, hpw]

/-- Witness for C3 at a concrete input: with a maximum of 3 attempts, a
verified unlocked user already at 2 failed attempts who supplies a wrong
password reaches 3 attempts and comes out locked. -/
theorem c3_login_lockout_and_success_witness :
    ∃ u2 : User,
      login_user 3 (fun p h => h == some p)
          [{ id := 1, email := "a@b.c", email_verified := true,
             failed_login_attempts := 2, hashed_password := some "pw" }]
          "a@b.c" "wrong" 99
        = (persist [{ id := 1, email := "a@b.c", email_verified := true,
                      failed_login_attempts := 2, hashed_password := some "pw" }] u2, none)
      ∧ u2.failed_login_attempts = 2 + 1
      ∧ (u2.is_locked = true ↔ (3 : Nat) ≤ 2 + 1)
      ∧ u2.id = 1 ∧ u2.email = "a@b.c"
      ∧ u2.last_login_at = none
      ∧ u2.hashed_password = some "pw"
      ∧ u2.email_verified = true :=
  ((c3_login_lockout_and_success 3 (fun p h => h == some p)
      [{ id := 1, email := "a@b.c", email_verified := true,
         failed_login_attempts := 2, hashed_password := some "pw" }]
      "a@b.c" "wrong" 99).2
      { id := 1, email := "a@b.c", email_verified := true,
        failed_login_attempts := 2, hashed_password := some "pw" }
      (by decide)).2.2.1 rfl rfl (by decide)

/-- C4: verify_email_with_token returns false and leaves the store
untouched when the user is absent or the stored token does not equal the
submitted one; on a match it sets email_verified, clears the token,
promotes ANONYMOUS to AUTHENTICATED while leaving any other role
unchanged, persists the row and returns true. -/
theorem c4_verify_email_with_token_behaviour :
    ∀ (db : List User) (uid : Nat) (token : String),
      (db.find? (fun u => u.id == uid) = none →
        verify_email_with_token db uid token = (db, false))
      ∧ ∀ u : User, db.find? (fun u => u.id == uid) = some u →
          ((u.verification_token ≠ some token →
              verify_email_with_token db uid token = (db, false))
           ∧ (u.verification_token = some token →
              ∃ u2 : User,
                verify_email_with_token db uid token = (persist db u2, true)
                ∧ u2.email_verified = true
                ∧ u2.verification_token = none
                ∧ (u.role = some UserRole.ANONYMOUS → u2.role = some UserRole.AUTHENTICATED)
                ∧ (u.role ≠ some UserRole.ANONYMOUS → u2.role = u.role)
                ∧ u2.id = u.id ∧ u2.email = u.email ∧ u2.nickname = u.nickname
                ∧ u2.is_locked = u.is_locked
                ∧ u2.failed_login_attempts = u.failed_login_attempts
                ∧ u2.last_login_at = u.last_login_at
                ∧ u2.hashed_password = u.hashed_password
                ∧ u2.invited_by_user_id = u.invited_by_user_id)) := by
  intro db uid token
  constructor
  · intro hnone
    unfold verify_email_with_token
    rw [hnone]
  · intro u hu
    constructor
    · intro hne
      unfold verify_email_with_token
      rw [hu]
      simp [hne]
    · intro heq
      unfold verify_email_with_token
      rw [hu]
      simp only [heq]
      by_cases hr : u.role = some UserRole.ANONYMOUS
      · refine ⟨{ u with email_verified := true, verification_token := none, role := some UserRole.AUTHENTICATED }, ?_, rfl, rfl, fun _ => rfl, fun hc => absurd hr hc, rfl, rfl, rfl, rfl, rfl, rfl, rfl, rfl⟩
        simp [hr]
      · refine ⟨{ u with email_verified := true, verification_token := none }, ?_, rfl, rfl, fun hc => absurd hc hr, fun _ => rfl, rfl, rfl, rfl, rfl, rfl, rfl, rfl, rfl⟩
        simp [hr]

/-- Witness for C4 at a concrete input: an anonymous user with the
matching token becomes verified, loses the token and is promoted to
AUTHENTICATED. -/
theorem c4_verify_email_with_token_behaviour_witness :
    ∃ u2 : User,
      verify_email_with_token
          [{ id := 7, email := "x@y.z", role := some UserRole.ANONYMOUS,
             verification_token := some "tok" }] 7 "tok"
        = (persist [{ id := 7, email := "x@y.z", role := some UserRole.ANONYMOUS,
                      verification_token := some "tok" }] u2, true)
      ∧ u2.email_verified = true
      ∧ u2.verification_token = none
      ∧ (some UserRole.ANONYMOUS = some UserRole.ANONYMOUS →
          u2.role = some UserRole.AUTHENTICATED)
      ∧ (some UserRole.ANONYMOUS ≠ some UserRole.ANONYMOUS →
          u2.role = some UserRole.ANONYMOUS)
      ∧ u2.id = 7 ∧ u2.email = "x@y.z" ∧ u2.nickname = none
      ∧ u2.is_locked = false
      ∧ u2.failed_login_attempts = 0
      ∧ u2.last_login_at = none
      ∧ u2.hashed_password = none
      ∧ u2.invited_by_user_id = none :=
  ((c4_verify_email_with_token_behaviour
      [{ id := 7, email := "x@y.z", role := some UserRole.ANONYMOUS,
         verification_token := some "tok" }] 7 "tok").2
      { id := 7, email := "x@y.z", role := some UserRole.ANONYMOUS,
        verification_token := some "tok" }
      (by decide)).2 rfl

/-- C5 counterexample: the claim states that no verification token is
generated for the first (ADMIN) user.  Evaluating create on the empty
store shows the first user is created with the generated token attached,
not with a null token: the source assigns the token unconditionally after
the role branch. -/
theorem c5_counterexample_first_user_has_token :
    ((create (fun s => s) "tok" "nick" 1 [] "a@b.c" "pw").2.map
        User.verification_token = some (some "tok"))
    ∧ some (some "tok") ≠ (some none : Option (Option String)) := by
  constructor
  · decide
  · decide

/-- C5 amended: for every valid registration with a fresh email, the
first user ever created gets role ADMIN with email_verified true, every
subsequent user gets role ANONYMOUS with email_verified false, and every
created user, the first one included, carries the freshly generated
non-null verification token. -/
theorem c5_amended_first_user_admin :
    ∀ (hash : String → String) (token nickname : String) (newId : Nat)
      (db : List User) (email password : String),
      get_by_email false db email = none →
      ∃ u : User,
        create hash token nickname newId db email password = (db ++ [u], some u)
        ∧ (db = [] → u.role = some UserRole.ADMIN ∧ u.email_verified = true)
        ∧ (db ≠ [] → u.role = some UserRole.ANONYMOUS ∧ u.email_verified = false)
        ∧ u.verification_token = some token
        ∧ u.email = email ∧ u.nickname = some nickname
        ∧ u.hashed_password = some (hash password)
        ∧ u.id = newId := by
  intro hash token nickname newId db email password hfind
  unfold create
  rw [hfind]
  by_cases hdb : db = []
  · subst hdb
    exact ⟨_, rfl, fun _ => ⟨rfl, rfl⟩, fun hc => absurd rfl hc, rfl, rfl, rfl, rfl, rfl⟩
  · have hlen : db.length ≠ 0 := fun h => hdb (List.length_eq_zero.mp h)
    simp only [Option.isSome_none, Bool.false_eq_true, if_false]
    have hbeq : (db.length == 0) = false := by
      simp [hlen]
    rw [hbeq]
    exact ⟨_, rfl, fun hc => absurd hc hdb, fun _ => ⟨rfl, rfl⟩, rfl, rfl, rfl, rfl, rfl⟩

/-- Witness for the amended C5 at a concrete input: the first
registration on an empty store yields an ADMIN, verified, and still
token-carrying user. -/
theorem c5_amended_first_user_admin_witness :
    ∃ u : User,
      create (fun s => s) "tok" "nick" 1 [] "a@b.c" "pw" = ([] ++ [u], some u)
      ∧ (([] : List User) = [] → u.role = some UserRole.ADMIN ∧ u.email_verified = true)
      ∧ (([] : List User) ≠ [] → u.role = some UserRole.ANONYMOUS ∧ u.email_verified = false)
      ∧ u.verification_token = some "tok"
      ∧ u.email = "a@b.c" ∧ u.nickname = some "nick"
      ∧ u.hashed_password = some ((fun s : String => s) "pw")
      ∧ u.id = 1 :=
  c5_amended_first_user_admin (fun s => s) "tok" "nick" 1 [] "a@b.c" "pw" rfl

/-- C7: update applies nothing and returns the failure sentinel when the
patch is empty after the unset (None) fields are removed, and likewise
when the cleaned patch contains a role change while the acting user does
not hold the role name ADMIN; in both cases the store is returned
unchanged, so none of the other fields of the same call is applied. -/
theorem c7_update_rejects_empty_and_unauthorized :
    ∀ (execFault : Bool) (db : List User) (uid : Nat)
      (patch : List (String × Option String)) (actor : Option String),
      (patch.filterMap (fun kv => kv.2.map fun v => (kv.1, v)) = [] →
        update execFault db uid patch actor = (db, none))
      ∧ ((patch.filterMap (fun kv => kv.2.map fun v => (kv.1, v))).any
            (fun kv => kv.1 == "role") = true →
          actor ≠ some "ADMIN" →
          update execFault db uid patch actor = (db, none)) := by
  intro execFault db uid patch actor
  constructor
  · intro h
    unfold update
    simp [h]
  · intro hrole hactor
    unfold update
    by_cases he : (patch.filterMap (fun kv => kv.2.map fun v => (kv.1, v))).isEmpty
    · simp [he]
    · by_cases hv : validPatch (patch.filterMap (fun kv => kv.2.map fun v => (kv.1, v)))
      · simp [he, hv, hrole, hactor]
      · simp [he, hv]

/-- Witness for C7 at concrete inputs: a patch that is empty once its
None value is dropped fails with no change, and a role change submitted
by a MANAGER fails with no change even though the same call also carries
an authorized bio field. -/
theorem c7_update_rejects_empty_and_unauthorized_witness :
    update false [{ id := 1, email := "a@b.c" }] 1 [("bio", none)] (some "ADMIN")
        = ([{ id := 1, email := "a@b.c" }], none)
    ∧ update false [{ id := 1, email := "a@b.c" }] 1
          [("role", some "MANAGER"), ("bio", some "hi")] (some "MANAGER")
        = ([{ id := 1, email := "a@b.c" }], none) :=
  ⟨(c7_update_rejects_empty_and_unauthorized false [{ id := 1, email := "a@b.c" }] 1
      [("bio", none)] (some "ADMIN")).1 rfl,
   (c7_update_rejects_empty_and_unauthorized false [{ id := 1, email := "a@b.c" }] 1
      [("role", some "MANAGER"), ("bio", some "hi")] (some "MANAGER")).2 rfl (by decide)⟩

/-- C8: on successful persistence invite_user appends exactly one stub
row carrying the invitee email, the inviter id and the fresh token, every
other column at its model default, sends one invitation email whose link
embeds that token, and returns true; on a persistence failure it rolls
back, sends nothing and returns false. -/
theorem c8_invite_user_stub_and_rollback :
    ∀ (token : String) (newId : Nat) (baseUrl : String)
      (db : List User) (email : String) (inviter : Nat),
      (∃ u : User,
          invite_user token newId true baseUrl db email inviter
            = (db ++ [u],
               [{ recipient := email, kind := "invitation",
                  link := baseUrl ++ "/register?token=" ++ token }], true)
          ∧ u.email = email
          ∧ u.invited_by_user_id = some inviter
          ∧ u.verification_token = some token
          ∧ u.id = newId
          ∧ u.nickname = none ∧ u.hashed_password = none ∧ u.role = none
          ∧ u.email_verified = false ∧ u.is_locked = false
          ∧ u.failed_login_attempts = 0 ∧ u.last_login_at = none
          ∧ u.is_professional = false ∧ u.is_converted = false
          ∧ u.first_name = none ∧ u.last_name = none ∧ u.bio = none)
      ∧ invite_user token newId false baseUrl db email inviter = (db, [], false) :=
  fun token newId _ _ email inviter =>
    ⟨⟨{ id := newId, email := email, invited_by_user_id := some inviter,
        verification_token := some token },
      rfl, rfl, rfl, rfl, rfl, rfl, rfl, rfl, rfl, rfl, rfl, rfl, rfl, rfl, rfl, rfl, rfl⟩,
     rfl⟩

end UserMgmt
